import Mathlib

/-
Verification of the token-budget conversation trimmer from utils.py
(functions count_tokens and clip_tokens).

A message is a role-tagged piece of text.  The tokenizer is an external
collaborator providing encode and decode; it is modelled as a structure of
two functions, so every theorem quantifies over an arbitrary tokenizer.
Token ids are natural numbers, as in the source.
-/

/-- A conversation message: a role string and a content string. -/
structure Message where
  role : String
  content : String
deriving DecidableEq, Repr

/-- Internal, ephemeral view used by clip_tokens: a role together with the
token id list obtained by encoding the content. -/
structure TokMsg where
  role : String
  content : List Nat
deriving DecidableEq, Repr

/-- The external tokenizer collaborator: encode text to token ids and decode
token ids back to text. -/
structure Tokenizer where
  encode : String → List Nat
  decode : List Nat → String

/-- count_tokens from utils.py: the sum over the messages of the length of
the encoding of the content. -/
def count_tokens (enc : Tokenizer) (messages : List Message) : Nat :=
  (messages.map (fun message => (enc.encode message.content).length)).sum

/-- The tokenization pass of clip_tokens: each message is replaced by its
role paired with the encoded content. -/
def tokenizeMessages (enc : Tokenizer) (messages : List Message) : List TokMsg :=
  messages.map (fun message => ⟨message.role, enc.encode message.content⟩)

/-- The flattening step of clip_tokens: the concatenation of all token
lists in message order. -/
def allTokens (tms : List TokMsg) : List Nat :=
  (tms.map TokMsg.content).flatten

/-- The rebuild loop of clip_tokens, at the token level (before decoding).
It walks the tokenized input messages, slicing clipped at current index
idx; when the next slice would run past the end of clipped it emits the
remainder and stops.  Python slice clipped[i:i+n] is take n after drop i,
and clipped[i:] is drop i. -/
def rebuildT : List TokMsg → Nat → List Nat → List TokMsg
  | [], _, _ => []
  | message :: rest, idx, clipped =>
    if idx + message.content.length > clipped.length then
      [⟨message.role, clipped.drop idx⟩]
    else
      ⟨message.role, (clipped.drop idx).take message.content.length⟩ ::
        rebuildT rest (idx + message.content.length) clipped

/-- Decoding a token-level message back to a text message. -/
def decodeMsg (enc : Tokenizer) (m : TokMsg) : Message :=
  ⟨m.role, enc.decode m.content⟩

/-- The rebuild loop of clip_tokens exactly as in the source: each emitted
message is decoded as it is appended. -/
def rebuild (enc : Tokenizer) : List TokMsg → Nat → List Nat → List Message
  | [], _, _ => []
  | message :: rest, idx, clipped =>
    if idx + message.content.length > clipped.length then
      [⟨message.role, enc.decode (clipped.drop idx)⟩]
    else
      ⟨message.role, enc.decode ((clipped.drop idx).take message.content.length)⟩ ::
        rebuild enc rest (idx + message.content.length) clipped

/-- clip_tokens from utils.py.  If the total token count is at most
max_tokens the input is returned unchanged.  Otherwise the messages are
tokenized, the token lists are flattened, the first total - max_tokens
tokens are dropped, and the remaining tokens are regrouped by the rebuild
loop.  max_tokens is an integer as in Python; the slice start
total - max_tokens is positive in the clipping branch, so the Python slice
is an ordinary drop. -/
def clip_tokens (enc : Tokenizer) (messages : List Message) (max_tokens : Int) : List Message :=
  let total_tokens := count_tokens enc messages
  if (total_tokens : Int) ≤ max_tokens then
    messages
  else
    let tokenized_messages := tokenizeMessages enc messages
    let clipped_tokens :=
      (allTokens tokenized_messages).drop (((total_tokens : Int) - max_tokens).toNat)
    rebuild enc tokenized_messages 0 clipped_tokens

/-- Token-level variant of clip_tokens: the same branch structure and the
same rebuild loop, stopping before the final decode.  Used to state
token-count properties exactly, as the assigned token sequences. -/
def clipTokensT (enc : Tokenizer) (messages : List Message) (max_tokens : Int) : List TokMsg :=
  let total_tokens := count_tokens enc messages
  if (total_tokens : Int) ≤ max_tokens then
    tokenizeMessages enc messages
  else
    let tokenized_messages := tokenizeMessages enc messages
    let clipped_tokens :=
      (allTokens tokenized_messages).drop (((total_tokens : Int) - max_tokens).toNat)
    rebuildT tokenized_messages 0 clipped_tokens

/-- Sum of the lengths of the token lists of a token-level conversation. -/
def tokenTotal (tms : List TokMsg) : Nat :=
  (tms.map (fun m => m.content.length)).sum

/-- A concrete tokenizer for witnesses and counterexamples: one token per
character, the token id being the character code. -/
def charTok : Tokenizer :=
  ⟨fun s => s.data.map Char.toNat, fun ts => String.mk (ts.map Char.ofNat)⟩

/-- The token total of an empty token-level conversation is zero. -/
@[simp]
theorem tokenTotal_nil : tokenTotal [] = 0 := rfl

/-- The token total of a cons adds the head length to the tail total. -/
@[simp]
theorem tokenTotal_cons (m : TokMsg) (l : List TokMsg) :
    tokenTotal (m :: l) = m.content.length + tokenTotal l := rfl

/-- The flattened token list has as many tokens as the message token lists
together. -/
theorem allTokens_length (tms : List TokMsg) :
    (allTokens tms).length = tokenTotal tms := by
  simp [allTokens, tokenTotal, List.length_flatten, List.map_map]
  rfl

/-- Tokenizing does not change the token total, which is count_tokens. -/
theorem tokenTotal_tokenize (enc : Tokenizer) (messages : List Message) :
    tokenTotal (tokenizeMessages enc messages) = count_tokens enc messages := by
  simp [tokenTotal, tokenizeMessages, count_tokens, List.map_map]
  rfl

/-- The source rebuild loop is the token-level rebuild loop followed by
decoding each emitted message. -/
theorem rebuild_eq_map (enc : Tokenizer) (ms : List TokMsg) (idx : Nat) (c : List Nat) :
    rebuild enc ms idx c = (rebuildT ms idx c).map (decodeMsg enc) := by
  induction ms generalizing idx with
  | nil => simp [rebuild, rebuildT]
  | cons m rest ih =>
    by_cases h : idx + m.content.length > c.length
    · simp [rebuild, rebuildT, h, decodeMsg]
    · simp [rebuild, rebuildT, h, decodeMsg, ih]

/-- The rebuild loop distributes exactly the clipped tokens from index idx
on: the emitted token lists hold min of the message total and the
remaining clipped length. -/
theorem tokenTotal_rebuildT (ms : List TokMsg) (idx : Nat) (c : List Nat) :
    tokenTotal (rebuildT ms idx c) = min (tokenTotal ms) (c.length - idx) := by
  induction ms generalizing idx with
  | nil => simp [rebuildT]
  | cons m rest ih =>
    by_cases h : idx + m.content.length > c.length
    · simp [rebuildT, h]
      omega
    · simp [rebuildT, h, ih]
      omega

/-- The rebuild loop never emits more messages than it is given. -/
theorem length_rebuildT_le (ms : List TokMsg) (idx : Nat) (c : List Nat) :
    (rebuildT ms idx c).length ≤ ms.length := by
  induction ms generalizing idx with
  | nil => simp [rebuildT]
  | cons m rest ih =>
    by_cases h : idx + m.content.length > c.length
    · simp [rebuildT, h]
    · simp only [rebuildT, h, if_neg, ite_false, List.length_cons]
      have := ih (idx + m.content.length)
      omega

/-- A longer clipped list never makes the rebuild loop emit fewer
messages. -/
theorem length_rebuildT_mono (ms : List TokMsg) (idx : Nat) {c1 c2 : List Nat}
    (h : c1.length ≤ c2.length) :
    (rebuildT ms idx c1).length ≤ (rebuildT ms idx c2).length := by
  induction ms generalizing idx with
  | nil => simp [rebuildT]
  | cons m rest ih =>
    by_cases h1 : idx + m.content.length > c1.length <;>
      by_cases h2 : idx + m.content.length > c2.length
    · simp [rebuildT, h1, h2]
    · simp [rebuildT, h1, h2]
    · omega
    · simp only [rebuildT, h1, h2, ite_false, List.length_cons]
      have := ih (idx + m.content.length)
      omega

/-- The roles emitted by the rebuild loop are the leading roles of the
messages it walks, in order: the role list of the output is the
corresponding initial segment of the role list of the input. -/
theorem map_role_rebuildT (ms : List TokMsg) (idx : Nat) (c : List Nat) :
    (rebuildT ms idx c).map TokMsg.role =
      (ms.map TokMsg.role).take (rebuildT ms idx c).length := by
  induction ms generalizing idx with
  | nil => simp [rebuildT]
  | cons m rest ih =>
    by_cases h : idx + m.content.length > c.length
    · simp [rebuildT, h]
    · simp [rebuildT, h, ih]

/-- On a nonempty input the rebuild loop emits at least one message. -/
theorem rebuildT_ne_nil (m : TokMsg) (rest : List TokMsg) (idx : Nat) (c : List Nat) :
    rebuildT (m :: rest) idx c ≠ [] := by
  by_cases h : idx + m.content.length > c.length <;> simp [rebuildT, h]

/-- When the clipped token list is empty, every message emitted by the
source rebuild loop has as content the decoding of the empty token
list. -/
theorem rebuild_nil_content (enc : Tokenizer) (ms : List TokMsg) (idx : Nat) :
    ∀ m ∈ rebuild enc ms idx [], m.content = enc.decode [] := by
  induction ms generalizing idx with
  | nil => simp [rebuild]
  | cons m rest ih =>
    simp only [rebuild, List.length_nil, List.drop_nil, List.take_nil]
    by_cases h : idx + m.content.length > 0
    · rw [if_pos h]
      simp
    · rw [if_neg h]
      intro x hx
      rw [List.mem_cons] at hx
      rcases hx with hx | hx
      · simp [hx]
      · exact ih (idx + m.content.length) x hx

/-- The token total of the token-level clip is the minimum of the input
total and the budget clamped to a natural number. -/
theorem tokenTotal_clipTokensT (enc : Tokenizer) (messages : List Message) (b : Int) :
    tokenTotal (clipTokensT enc messages b) =
      min (count_tokens enc messages) b.toNat := by
  by_cases hb : ((count_tokens enc messages : Int) ≤ b)
  · simp [clipTokensT, hb, tokenTotal_tokenize]
    omega
  · simp [clipTokensT, hb, tokenTotal_rebuildT, allTokens_length, tokenTotal_tokenize]
    omega

/-- clip_tokens and its token-level variant emit the same number of
messages. -/
theorem length_clip_eq (enc : Tokenizer) (messages : List Message) (b : Int) :
    (clip_tokens enc messages b).length = (clipTokensT enc messages b).length := by
  by_cases hb : ((count_tokens enc messages : Int) ≤ b)
  · simp [clip_tokens, clipTokensT, hb, tokenizeMessages]
  · simp [clip_tokens, clipTokensT, hb, rebuild_eq_map]

/-- With a non-positive budget and a conversation that enters the clipping
branch, every output message content is the decoding of the empty token
list: the whole flat token sequence is dropped. -/
theorem clip_content_of_nonpos (enc : Tokenizer) (messages : List Message) (b : Int)
    (hb : b ≤ 0) (hbranch : ¬ ((count_tokens enc messages : Int) ≤ b)) :
    ∀ m ∈ clip_tokens enc messages b, m.content = enc.decode [] := by
  have hd : (allTokens (tokenizeMessages enc messages)).length ≤
      ((count_tokens enc messages : Int) - b).toNat := by
    rw [allTokens_length, tokenTotal_tokenize]
    omega
  intro m hm
  simp only [clip_tokens, hbranch, ite_false] at hm
  rw [List.drop_eq_nil_of_le hd] at hm
  exact rebuild_nil_content enc _ 0 m hm

/-- Claim C1. The spec says a message entirely inside the dropped prefix of
the flat token sequence is omitted entirely from the output.  The code
violates this: the rebuild loop walks the input messages from the front
while consuming the clipped tail tokens from index zero, so the fully
dropped first message still produces an output entry, carrying its role
and the tokens of the second message.  Here messages system:ab and user:cd
with budget 2 drop exactly the two tokens of the system message, yet the
output keeps two messages, the first one role system with content cd. -/
theorem clip_c1_code_behavior :
    clip_tokens charTok [⟨"system", "ab"⟩, ⟨"user", "cd"⟩] 2 =
      [⟨"system", "cd"⟩, ⟨"user", ""⟩] := by decide

/-- Claim C2. The spec says the message straddling the cut keeps exactly
its own surviving trailing tokens under its own role.  The code violates
this: with messages system:ab and user:cd and budget 3, the cut drops one
token of the system message, so the spec expects system:b and user:cd; the
code instead emits role system with content bc (one token of the system
message and one token of the user message) and role user with content d. -/
theorem clip_c2_code_behavior :
    clip_tokens charTok [⟨"system", "ab"⟩, ⟨"user", "cd"⟩] 3 =
      [⟨"system", "bc"⟩, ⟨"user", "d"⟩] := by decide

/-- Claim C3. For a conversation whose token total strictly exceeds a
positive budget, the output token total equals the budget exactly: the
output of clip_tokens is the decoding of the token-level clip, and the
token lists assigned to the output messages sum to exactly max_tokens. -/
theorem clip_c3_budget_exact (enc : Tokenizer) (messages : List Message) (max_tokens : Int)
    (hpos : 0 < max_tokens)
    (hover : max_tokens < (count_tokens enc messages : Int)) :
    clip_tokens enc messages max_tokens =
      (clipTokensT enc messages max_tokens).map (decodeMsg enc) ∧
    tokenTotal (clipTokensT enc messages max_tokens) = max_tokens.toNat := by
  have hb : ¬ ((count_tokens enc messages : Int) ≤ max_tokens) := by omega
  constructor
  · simp only [clip_tokens, clipTokensT]
    rw [if_neg hb, if_neg hb, rebuild_eq_map]
  · rw [tokenTotal_clipTokensT]
    omega

/-- Witness for claim C3 at a concrete input: two two-token messages and
budget three. -/
theorem clip_c3_budget_exact_witness :
    ((0 : Int) < 3 ∧
      (3 : Int) < (count_tokens charTok [⟨"system", "ab"⟩, ⟨"user", "cd"⟩] : Int)) ∧
    (clip_tokens charTok [⟨"system", "ab"⟩, ⟨"user", "cd"⟩] 3 =
        (clipTokensT charTok [⟨"system", "ab"⟩, ⟨"user", "cd"⟩] 3).map (decodeMsg charTok) ∧
      tokenTotal (clipTokensT charTok [⟨"system", "ab"⟩, ⟨"user", "cd"⟩] 3) = (3 : Int).toNat) :=
  ⟨⟨by decide, by decide⟩,
    clip_c3_budget_exact charTok [⟨"system", "ab"⟩, ⟨"user", "cd"⟩] 3 (by decide) (by decide)⟩

/-- Claim C4. If the total token count is at most the budget, clip_tokens
returns the input conversation unchanged; in particular the empty
conversation is returned as empty for any positive budget. -/
theorem clip_c4_identity (enc : Tokenizer) (messages : List Message) (max_tokens : Int)
    (h : (count_tokens enc messages : Int) ≤ max_tokens) :
    clip_tokens enc messages max_tokens = messages := by
  simp only [clip_tokens]
  rw [if_pos h]

/-- Witness for claim C4 at a concrete input: the empty conversation with
a positive budget comes back empty. -/
theorem clip_c4_identity_witness :
    ((count_tokens charTok [] : Int) ≤ 5) ∧ clip_tokens charTok [] 5 = [] :=
  ⟨by decide, clip_c4_identity charTok [] 5 (by decide)⟩

/-- Claim C5 counterexample. The claim says a non-positive budget fails
with an InvalidBudget error rather than returning any conversation; the
code performs no budget validation at all, and at budget minus one it
returns a conversation normally. -/
theorem clip_c5_counterexample :
    clip_tokens charTok [⟨"user", "ab"⟩] (-1) = [⟨"user", ""⟩] := by decide

/-- Claim C5 as amended. clip_tokens has no budget validation: with a
non-positive budget it returns normally; when the conversation has any
tokens at all, the clipping branch runs with an empty clipped list and
every returned message has as content the decoding of the empty token
list. -/
theorem clip_c5_amended (enc : Tokenizer) (messages : List Message) (max_tokens : Int)
    (hb : max_tokens ≤ 0) (ht : 0 < count_tokens enc messages) :
    ∀ m ∈ clip_tokens enc messages max_tokens, m.content = enc.decode [] := by
  have hbranch : ¬ ((count_tokens enc messages : Int) ≤ max_tokens) := by omega
  exact clip_content_of_nonpos enc messages max_tokens hb hbranch

/-- Witness for the amended claim C5 at a concrete input: budget zero on a
one-message conversation, applied to the member that is returned. -/
theorem clip_c5_amended_witness :
    ((0 : Int) ≤ 0 ∧ 0 < count_tokens charTok [⟨"user", "ab"⟩]) ∧
    (⟨"user", ""⟩ : Message).content = charTok.decode [] :=
  ⟨⟨by decide, by decide⟩,
    clip_c5_amended charTok [⟨"user", "ab"⟩] 0 (by decide) (by decide)
      ⟨"user", ""⟩ (by decide)⟩

/-- Claim C6. The spec says that when the excess reaches the total (every
token must be dropped) the result is an empty sequence.  The code violates
this: at budget zero on a one-message conversation the excess equals the
total, yet the output is one message, the first input role with empty
content, not the empty sequence. -/
theorem clip_c6_code_behavior :
    clip_tokens charTok [⟨"system", "ab"⟩] 0 = [⟨"system", ""⟩] := by decide

/-- Claim C7. The spec says only a contiguous prefix of the input messages
is ever removed, never a suffix.  The code violates this: with messages
system:ab and user:cd and budget 1, three tokens are dropped from the
front of the flat sequence, so the spec expects only the truncated last
message user:d to survive; the code instead keeps the first message slot,
role system carrying the last token d, and removes the second message,
a contiguous suffix. -/
theorem clip_c7_code_behavior :
    clip_tokens charTok [⟨"system", "ab"⟩, ⟨"user", "cd"⟩] 1 =
      [⟨"system", "d"⟩] := by decide

/-- Claim C8. Monotonicity in the budget: for budgets b1 less than b2, the
token total assigned by the clip at b1 is at most the one at b2, and the
output at b1 never has more messages than the output at b2; since the
output messages always occupy the leading input slots in order (claim
C10), an input slot absent from the output at the larger budget is also
absent at the smaller one, which is the final conjunct. -/
theorem clip_c8_monotone (enc : Tokenizer) (messages : List Message) (b1 b2 : Int)
    (h : b1 < b2) :
    tokenTotal (clipTokensT enc messages b1) ≤ tokenTotal (clipTokensT enc messages b2) ∧
    (clip_tokens enc messages b1).length ≤ (clip_tokens enc messages b2).length ∧
    (∀ i : Nat, (clip_tokens enc messages b2).length ≤ i →
      (clip_tokens enc messages b1).length ≤ i) := by
  have htot : tokenTotal (clipTokensT enc messages b1) ≤
      tokenTotal (clipTokensT enc messages b2) := by
    rw [tokenTotal_clipTokensT, tokenTotal_clipTokensT]
    omega
  have hlen : (clip_tokens enc messages b1).length ≤ (clip_tokens enc messages b2).length := by
    rw [length_clip_eq, length_clip_eq]
    by_cases hb1 : ((count_tokens enc messages : Int) ≤ b1) <;>
      by_cases hb2 : ((count_tokens enc messages : Int) ≤ b2)
    · simp only [clipTokensT]
      rw [if_pos hb1, if_pos hb2]
    · exact absurd (le_trans hb1 (le_of_lt h)) hb2
    · simp only [clipTokensT]
      rw [if_neg hb1, if_pos hb2]
      exact length_rebuildT_le _ _ _
    · simp only [clipTokensT]
      rw [if_neg hb1, if_neg hb2]
      apply length_rebuildT_mono
      simp only [List.length_drop]
      omega
  exact ⟨htot, hlen, fun i hi => le_trans hlen hi⟩

/-- Witness for claim C8 at a concrete input: budgets one and three on two
two-token messages. -/
theorem clip_c8_monotone_witness :
    ((1 : Int) < 3) ∧
    tokenTotal (clipTokensT charTok [⟨"system", "ab"⟩, ⟨"user", "cd"⟩] 1) ≤
      tokenTotal (clipTokensT charTok [⟨"system", "ab"⟩, ⟨"user", "cd"⟩] 3) ∧
    (clip_tokens charTok [⟨"system", "ab"⟩, ⟨"user", "cd"⟩] 1).length ≤
      (clip_tokens charTok [⟨"system", "ab"⟩, ⟨"user", "cd"⟩] 3).length :=
  ⟨by decide,
    (clip_c8_monotone charTok [⟨"system", "ab"⟩, ⟨"user", "cd"⟩] 1 3 (by decide)).1,
    (clip_c8_monotone charTok [⟨"system", "ab"⟩, ⟨"user", "cd"⟩] 1 3 (by decide)).2.1⟩

/-- Claim C10. For a nonempty conversation whose token total strictly
exceeds max_tokens, the output of clip_tokens is nonempty, its role list
is the corresponding initial segment of the input role list (roles are
consumed from the front of the input, in order), and when max_tokens is
zero or negative every output message content is the decoding of the
empty token list. -/
theorem clip_c10_roles_from_front (enc : Tokenizer) (messages : List Message)
    (max_tokens : Int) (hne : messages ≠ [])
    (hover : max_tokens < (count_tokens enc messages : Int)) :
    clip_tokens enc messages max_tokens ≠ [] ∧
    (clip_tokens enc messages max_tokens).map Message.role =
      (messages.map Message.role).take (clip_tokens enc messages max_tokens).length ∧
    (max_tokens ≤ 0 → ∀ m ∈ clip_tokens enc messages max_tokens,
      m.content = enc.decode []) := by
  have hb : ¬ ((count_tokens enc messages : Int) ≤ max_tokens) := by omega
  have hroles : (tokenizeMessages enc messages).map TokMsg.role =
      messages.map Message.role := by
    simp only [tokenizeMessages, List.map_map]
    rfl
  refine ⟨?_, ?_, fun hb0 => clip_content_of_nonpos enc messages max_tokens hb0 hb⟩
  · cases messages with
    | nil => exact absurd rfl hne
    | cons msg rest =>
      simp only [clip_tokens, tokenizeMessages, List.map_cons]
      rw [if_neg hb, rebuild_eq_map]
      intro hcon
      rw [List.map_eq_nil_iff] at hcon
      exact rebuildT_ne_nil _ _ _ _ hcon
  · simp only [clip_tokens]
    rw [if_neg hb]
    rw [rebuild_eq_map, List.map_map, List.length_map]
    rw [show Message.role ∘ decodeMsg enc = TokMsg.role from rfl]
    rw [map_role_rebuildT, hroles]

/-- Witness for claim C10 at a concrete input: a single two-token message
with budget zero. -/
theorem clip_c10_roles_from_front_witness :
    (([⟨"user", "ab"⟩] : List Message) ≠ [] ∧
      (0 : Int) < (count_tokens charTok [⟨"user", "ab"⟩] : Int)) ∧
    clip_tokens charTok [⟨"user", "ab"⟩] 0 ≠ [] ∧
    (clip_tokens charTok [⟨"user", "ab"⟩] 0).map Message.role =
      (([⟨"user", "ab"⟩] : List Message).map Message.role).take
        (clip_tokens charTok [⟨"user", "ab"⟩] 0).length :=
  ⟨⟨by decide, by decide⟩,
    (clip_c10_roles_from_front charTok [⟨"user", "ab"⟩] 0 (by decide) (by decide)).1,
    (clip_c10_roles_from_front charTok [⟨"user", "ab"⟩] 0 (by decide) (by decide)).2.1⟩
